import Mathlib

/-
Shallow embedding of the Express honeypot triage middleware
(client/middleware/express-honeypot.js) of the adaptive_honeypot repository.

JavaScript values that flow through the middleware (request bodies and the
decision oracle's JSON response) are modelled by the mutual inductive family
`JsVal` / `JsFields` / `JsList`.  JavaScript truthiness, property access,
`||`-defaulting, `toString`, `JSON.stringify` and `parseInt(·, 10)` are
modelled as executable functions below, following ECMAScript behaviour on the
value shapes the middleware can actually receive.
-/

mutual

inductive JsVal where
  | undef : JsVal
  | null : JsVal
  | bool : Bool → JsVal
  | num : Int → JsVal
  | str : String → JsVal
  | obj : JsFields → JsVal
  | arr : JsList → JsVal

inductive JsFields where
  | nil : JsFields
  | cons : String → JsVal → JsFields → JsFields

inductive JsList where
  | nil : JsList
  | cons : JsVal → JsList → JsList

end

/-- JavaScript truthiness: `undefined`, `null`, `false`, `0`, and `""` are
falsy; every other value (including any object or array) is truthy. -/
def truthy : JsVal → Bool
  | .undef => false
  | .null => false
  | .bool b => b
  | .num n => !(n == 0)
  | .str s => !(s.data.isEmpty)
  | .obj _ => true
  | .arr _ => true

/-- JavaScript `a || b`: `a` when truthy, else `b`. -/
def jsOr (a b : JsVal) : JsVal :=
  if truthy a then a else b

/-- Lookup of a key in an object's field list (first match wins; JS objects
have unique keys). -/
def findField : JsFields → String → JsVal
  | .nil, _ => .undef
  | .cons k v rest, key => if k = key then v else findField rest key

/-- JavaScript property access `v[key]`: `undefined` on every non-object. -/
def getField : JsVal → String → JsVal
  | .obj fs, k => findField fs k
  | _, _ => .undef

def fieldVals : JsFields → List JsVal
  | .nil => []
  | .cons _ v rest => v :: fieldVals rest

def jsListToList : JsList → List JsVal
  | .nil => []
  | .cons v rest => v :: jsListToList rest

/-- `Object.values` as used by the middleware: field values of an object,
elements of an array, empty otherwise. -/
def objectValues : JsVal → List JsVal
  | .obj fs => fieldVals fs
  | .arr es => jsListToList es
  | _ => []

/-- `typeof v === 'object'` combined with truthiness of `v` (the middleware
guards with `req.body && typeof req.body === 'object'`, which excludes
`null`). -/
def isObjLike : JsVal → Bool
  | .obj _ => true
  | .arr _ => true
  | _ => false

mutual

/-- JavaScript `String(v)` / `v.toString()` on the modelled values: numbers
print in decimal, objects print as `[object Object]`, arrays join their
elements with commas (with `null`/`undefined` elements printing empty). -/
def jsToString : JsVal → String
  | .undef => "undefined"
  | .null => "null"
  | .bool b => cond b "true" "false"
  | .num n => toString n
  | .str s => s
  | .obj _ => "[object Object]"
  | .arr es => arrJoin es

def arrJoin : JsList → String
  | .nil => ""
  | .cons .undef .nil => ""
  | .cons .null .nil => ""
  | .cons v .nil => jsToString v
  | .cons .undef rest => "," ++ arrJoin rest
  | .cons .null rest => "," ++ arrJoin rest
  | .cons v rest => jsToString v ++ "," ++ arrJoin rest

end

def escChar (c : Char) : String :=
  if c = '"' then "\\\"" else if c = '\\' then "\\\\" else String.mk [c]

/-- JSON string quoting (quote and backslash escaping; the control-character
escapes are irrelevant to the values handled here). -/
def jsonQuote (s : String) : String :=
  "\"" ++ String.join (s.data.map escChar) ++ "\""

def joinComma : List String → String
  | [] => ""
  | [s] => s
  | s :: rest => s ++ "," ++ joinComma rest

mutual

/-- `JSON.stringify`: fields with `undefined` values are omitted from
objects, `undefined` array elements serialize as `null`.  The middleware only
ever applies it to object/array bodies; the `undef` top-level case is
unreachable there. -/
def stringify : JsVal → String
  | .undef => ""
  | .null => "null"
  | .bool b => cond b "true" "false"
  | .num n => toString n
  | .str s => jsonQuote s
  | .obj fs => "\x7b" ++ joinComma (fieldStrings fs) ++ "\x7d"
  | .arr es => "[" ++ joinComma (elemStrings es) ++ "]"

def fieldStrings : JsFields → List String
  | .nil => []
  | .cons _ .undef rest => fieldStrings rest
  | .cons k v rest => (jsonQuote k ++ ":" ++ stringify v) :: fieldStrings rest

def elemStrings : JsList → List String
  | .nil => []
  | .cons .undef rest => "null" :: elemStrings rest
  | .cons v rest => stringify v :: elemStrings rest

end

/-- ASCII lower-casing, as `String.prototype.toLowerCase` behaves on the
ASCII tokens and URLs this middleware inspects. -/
def charLower (c : Char) : Char :=
  if 'A' ≤ c ∧ c ≤ 'Z' then Char.ofNat (c.toNat + 32) else c

def lowerStr (s : String) : String :=
  String.mk (s.data.map charLower)

def startsList : List Char → List Char → Bool
  | [], _ => true
  | _ :: _, [] => false
  | a :: as, b :: bs => a == b && startsList as bs

def occursIn (pat : List Char) : List Char → Bool
  | [] => startsList pat []
  | c :: rest => startsList pat (c :: rest) || occursIn pat rest

/-- JavaScript `s.includes(pat)`: substring occurrence. -/
def strContains (s pat : String) : Bool :=
  occursIn pat.data s.data

/-- JavaScript `s.startsWith(pat)`. -/
def strStartsWith (s pat : String) : Bool :=
  startsList pat.data s.data

def stripLastSlash : List Char → List Char
  | [] => []
  | [c] => if c = '/' then [] else [c]
  | c :: rest => c :: stripLastSlash rest

/-- `base.replace(/\/$/, "")`: strip a single trailing slash, if present. -/
def stripTrailingSlash (s : String) : String :=
  String.mk (stripLastSlash s.data)

def isWs (c : Char) : Bool :=
  c == ' ' || c == '\t' || c == '\n' || c == '\r'

def digitsVal (cs : List Char) : Option Nat :=
  let ds := cs.takeWhile Char.isDigit
  if ds.isEmpty then none
  else some (ds.foldl (fun a c => a * 10 + (c.toNat - 48)) 0)

def parseIntList (cs : List Char) : Option Int :=
  match cs.dropWhile isWs with
  | '-' :: rest => (digitsVal rest).map (fun n => -(n : Int))
  | '+' :: rest => (digitsVal rest).map (fun n => (n : Int))
  | other => (digitsVal other).map (fun n => (n : Int))

/-- JavaScript `parseInt(v, 10)`: stringify the argument, skip leading
whitespace, read an optional sign and then leading decimal digits; `none`
models `NaN` (no digits). -/
def jsParseInt (v : JsVal) : Option Int :=
  parseIntList (jsToString v).data

/-
The inbound request, projected onto the fields `express-honeypot.js` reads:
`req.method`, `req.originalUrl || req.url` (collapsed to one string),
`req.body` (a JS value: absent bodies are `undef`) and `req.rawBody`
(`none` when absent; a present raw-body buffer is always truthy in JS).
-/

structure Request where
  method : String
  url : String
  body : JsVal
  rawBody : Option String

/-- `guessBodyString(req)` from the source: a truthy string body is returned
as is, a truthy object body is `JSON.stringify`-ed, otherwise the raw body
(when present) or `""`.  The `typeof` tests inside its `try` cannot throw, so
the `catch` is dead. -/
def rawFallback (req : Request) : String :=
  req.rawBody.getD ""

def guessBodyString (req : Request) : String :=
  match req.body with
  | .str s => if s.data.isEmpty then rawFallback req else s
  | .obj _ => stringify req.body
  | .arr _ => stringify req.body
  | _ => rawFallback req

/-- `/insert|update|delete|drop|sql/i.test(s)` on an already-lowercased
string. -/
def token5 (s : String) : Bool :=
  strContains s "insert" || strContains s "update" || strContains s "delete" ||
  strContains s "drop" || strContains s "sql"

/-- Any of the seven SQL tokens of the middleware occurring in `s`. -/
def token7 (s : String) : Bool :=
  strContains s "select" || strContains s "union" || token5 s

/-- The structured-body clause of the detector:
`req.body && typeof req.body === 'object' && Object.values(req.body).some(v
=> typeof v === 'string' && /select|union|insert|update|delete|drop|sql/i.test(v))`. -/
def structuredValueHit (body : JsVal) : Bool :=
  isObjLike body &&
    (objectValues body).any (fun v =>
      match v with
      | .str s => token7 (lowerStr s)
      | _ => false)

/-- The `suspect` detector of the middleware, verbatim from the source: the
URL is tested only for `select` and `union`; the body string is tested for
`select` and `union` by `includes` and for the remaining five tokens by
regex; string values of an object body are tested for all seven tokens. -/
def suspect (req : Request) : Bool :=
  let urlLower := lowerStr req.url
  let bodyLower := lowerStr (guessBodyString req)
  strContains urlLower "select" || strContains urlLower "union" ||
  strContains bodyLower "select" || strContains bodyLower "union" ||
  token5 bodyLower || structuredValueHit req.body

/-- The prefilter as the SPEC's words state it (for comparison with
`suspect`): some configured token occurs case-insensitively in the URL, in
the payload string, or in a string value of a structured body. -/
def specClassify (req : Request) : Bool :=
  token7 (lowerStr req.url) || token7 (lowerStr (guessBodyString req)) ||
  structuredValueHit req.body

/-- Static configuration read from the environment: the base URL used to
resolve relative redirect targets (`HONEYPOT_BASE`, default
`"http://127.0.0.1:5000"`). -/
structure Config where
  honeypotBase : String

def defaultConfig : Config :=
  ⟨"http://127.0.0.1:5000"⟩

/-- Outcome of the single `axios.post` to the decision oracle: `err` models a
thrown transport/timeout error (caught by the inner `catch`), `ok d` models a
resolved call whose `resp.data` is `d` (an empty body arrives as the falsy
`""`). -/
inductive OracleOutcome where
  | err : OracleOutcome
  | ok : JsVal → OracleOutcome

/-- A synthesized response emitted by the middleware instead of passing the
request on.  The `tarpit` variant records the `setTimeout` suspension
performed before the send (`none` models a `NaN` delay). -/
inductive Response where
  | redirect : JsVal → Response
  | fakeData : Int → JsVal → Response
  | tarpit : Option Int → JsVal → JsVal → Response

/-- A terminal event of one middleware invocation: either the single call to
`next()` or the single synthesized response. -/
inductive Event where
  | next : Event
  | respond : Response → Event

/-- How control leaves the `try` block: by an explicit `return` (carrying the
terminal events it emitted), by falling off the end of the block, or by a
thrown error reaching the `catch`. -/
inductive Ctrl where
  | returned : List Event → Ctrl
  | fellThrough : List Event → Ctrl
  | threw : List Event → Ctrl

/-- The code after the `try` block: the `catch` only logs, and the trailing
`next()` runs whenever the block did not `return`. -/
def outerGuard : Ctrl → List Event
  | .returned es => es
  | .fellThrough es => es ++ [Event.next]
  | .threw es => es ++ [Event.next]

/-- `js.action_result || {}`. -/
def arOf (js : JsVal) : JsVal :=
  jsOr (getField js "action_result") (.obj .nil)

/-- `(ar.action || ar.action_type || "normal").toString()`. -/
def actionOf (js : JsVal) : String :=
  jsToString (jsOr (getField (arOf js) "action")
    (jsOr (getField (arOf js) "action_type") (.str "normal")))

/-- The placeholder body served when `ar.fake_payload` is falsy. -/
def fakePlaceholder : JsVal :=
  .obj (.cons "fake" (.str "simulated data") .nil)

/-- Redirect-target resolution: if the (defaulted) target is a string
beginning with `/`, prepend the configured base with its trailing slash
stripped; any other value is passed to `res.redirect` unchanged. -/
def resolveRedirect (cfg : Config) (url : JsVal) : JsVal :=
  match url with
  | .str s =>
      if strStartsWith s "/" = true then .str (stripTrailingSlash cfg.honeypotBase ++ s)
      else .str s
  | v => v

/-- The body of the middleware's `try` block, returning how control leaves it
together with whether the oracle was called.  Branches mirror the source:
benign requests return `next()` before the oracle call; a failed call or a
falsy `resp.data` returns `next()`; then redirect, fake-data and tarpit
branches are tested in that order on `action_result`; an unmatched action
falls off the end of the block. -/
def tryBody (cfg : Config) (req : Request) (orc : OracleOutcome) : Ctrl × Bool :=
  if suspect req = true then
    match orc with
    | .err => (.returned [.next], true)
    | .ok d =>
      if truthy d = true then
        let ar := arOf d
        let action := actionOf d
        if action = "redirect_honeypot" ∨ action = "redirect" then
          (.returned [.respond (.redirect (resolveRedirect cfg
            (jsOr (getField ar "url") (.str "/honeypot/fakedb"))))], true)
        else if action = "fake_data" ∨ truthy (getField ar "fake") = true then
          (.returned [.respond (.fakeData 200
            (jsOr (getField ar "fake_payload") fakePlaceholder))], true)
        else if action = "tarpit" ∨ action = "tarpit_slowdown" ∨ action = "delay" then
          (.returned [.respond (.tarpit
            (jsParseInt (jsOr (getField ar "delay_ms") (.num 1000)))
            (jsOr (getField ar "status") (.num 200))
            (jsOr (getField ar "message") (.str "Slow down")))], true)
        else (.fellThrough [], true)
      else (.returned [.next], true)
  else (.returned [.next], false)

/-- The observable result of one middleware invocation: its terminal events
and whether the decision oracle was consulted. -/
structure RunResult where
  events : List Event
  oracleCalled : Bool

/-- One full invocation of the middleware on one inbound request. -/
def honeypotRun (cfg : Config) (req : Request) (orc : OracleOutcome) : RunResult :=
  ⟨outerGuard (tryBody cfg req orc).1, (tryBody cfg req orc).2⟩

/-- `setTimeout` delay coercion: `NaN` and negative delays fire immediately. -/
def effectiveDelayMs : Option Int → Int
  | some n => max n 0
  | none => 0

/-- The action strings that select an enforcement branch. -/
def RecognizedAction (a : String) : Prop :=
  a = "redirect_honeypot" ∨ a = "redirect" ∨ a = "fake_data" ∨
  a = "tarpit" ∨ a = "tarpit_slowdown" ∨ a = "delay"

/-- The oracle outcomes that carry no actionable verdict: a thrown call, a
falsy response body, or a response whose `action_result` matches no
enforcement branch. -/
def NoVerdict : OracleOutcome → Prop
  | .err => True
  | .ok d =>
      truthy d = false ∨
      (¬ RecognizedAction (actionOf d) ∧ truthy (getField (arOf d) "fake") = false)

/-- Shared evaluation lemma: on a suspect request with a truthy oracle
response body, the middleware's events are given by the source's
redirect / fake-data / tarpit / fall-through branch cascade. -/
theorem run_events_ok (cfg : Config) (req : Request) (d : JsVal)
    (hs : suspect req = true) (ht : truthy d = true) :
    (honeypotRun cfg req (.ok d)).events =
      (if actionOf d = "redirect_honeypot" ∨ actionOf d = "redirect" then
        [Event.respond (.redirect (resolveRedirect cfg
          (jsOr (getField (arOf d) "url") (.str "/honeypot/fakedb"))))]
      else if actionOf d = "fake_data" ∨ truthy (getField (arOf d) "fake") = true then
        [Event.respond (.fakeData 200 (jsOr (getField (arOf d) "fake_payload") fakePlaceholder))]
      else if actionOf d = "tarpit" ∨ actionOf d = "tarpit_slowdown" ∨ actionOf d = "delay" then
        [Event.respond (.tarpit (jsParseInt (jsOr (getField (arOf d) "delay_ms") (.num 1000)))
          (jsOr (getField (arOf d) "status") (.num 200))
          (jsOr (getField (arOf d) "message") (.str "Slow down")))]
      else [Event.next]) := by
  show outerGuard (tryBody cfg req (.ok d)).1 = _
  unfold tryBody
  rw [if_pos hs]
  dsimp only
  rw [if_pos ht]
  split_ifs <;> rfl

/-- Shared lemma: a truthy-or-not response whose `action_result` matches no
enforcement branch ends in the single `next()`. -/
theorem run_noverdict_next (cfg : Config) (req : Request) (d : JsVal)
    (hs : suspect req = true)
    (h : truthy d = false ∨
      (¬ RecognizedAction (actionOf d) ∧ truthy (getField (arOf d) "fake") = false)) :
    (honeypotRun cfg req (.ok d)).events = [Event.next] := by
  by_cases ht : truthy d = true
  · rcases h with hf | ⟨hna, hnf⟩
    · rw [ht] at hf; exact absurd hf (by decide)
    · have h6 : ¬(actionOf d = "redirect_honeypot" ∨ actionOf d = "redirect" ∨
          actionOf d = "fake_data" ∨ actionOf d = "tarpit" ∨
          actionOf d = "tarpit_slowdown" ∨ actionOf d = "delay") := hna
      push_neg at h6
      obtain ⟨n1, n2, n3, n4, n5, n6⟩ := h6
      rw [run_events_ok cfg req d hs ht,
        if_neg (by rintro (h' | h') <;> exact absurd h' (by first | exact n1 | exact n2)),
        if_neg (by
          rintro (h' | h')
          · exact n3 h'
          · rw [hnf] at h'; exact absurd h' (by decide)),
        if_neg (by rintro (h' | h' | h') <;>
          exact absurd h' (by first | exact n4 | exact n5 | exact n6))]
  · show outerGuard (tryBody cfg req (.ok d)).1 = [Event.next]
    unfold tryBody
    rw [if_pos hs]
    dsimp only
    rw [if_neg ht]
    rfl

/-- Shared lemma: every run of the `try` block either returns a single
terminal event or falls off the end having emitted none. -/
theorem tryBody_shape (cfg : Config) (req : Request) (orc : OracleOutcome) :
    (∃ e, (tryBody cfg req orc).1 = .returned [e]) ∨
      (tryBody cfg req orc).1 = .fellThrough [] := by
  unfold tryBody
  rcases orc with _ | d
  · split_ifs <;> exact Or.inl ⟨_, rfl⟩
  · dsimp only
    split_ifs <;> first
      | exact Or.inl ⟨_, rfl⟩
      | exact Or.inr rfl

/-- C1: for every inbound request and every oracle outcome, the middleware
produces exactly one terminal event — one `next()` or one synthesized
response, never both and never neither, on every path including the
oracle-failure and fall-through paths. -/
theorem honeypot_exactly_one_terminal_event (cfg : Config) (req : Request)
    (orc : OracleOutcome) :
    ∃ e : Event, (honeypotRun cfg req orc).events = [e] := by
  rcases tryBody_shape cfg req orc with ⟨e, h⟩ | h
  · exact ⟨e, by show outerGuard (tryBody cfg req orc).1 = _; rw [h]; rfl⟩
  · exact ⟨Event.next, by show outerGuard (tryBody cfg req orc).1 = _; rw [h]; rfl⟩

/-- C2: if the oracle call fails (timeout/transport), the response body is
falsy, or the body carries no actionable verdict (no recognized `action` or
`action_type` value and no truthy `fake` field), the run terminates in the
single pass-through `next()`; the embedding is a total function, so no
exception crosses the pipeline boundary. -/
theorem noverdict_passthrough (cfg : Config) (req : Request) (orc : OracleOutcome)
    (hs : suspect req = true) (hnv : NoVerdict orc) :
    (honeypotRun cfg req orc).events = [Event.next] := by
  rcases orc with _ | d
  · show outerGuard (tryBody cfg req .err).1 = [Event.next]
    unfold tryBody
    rw [if_pos hs]
    rfl
  · exact run_noverdict_next cfg req d hs hnv

/-- A concrete suspect request shared by the witnesses below: its body
contains `UNION` and `SELECT`. -/
def suspectReq : Request :=
  ⟨"POST", "/search", .str "1 UNION SELECT password FROM users", none⟩

theorem noverdict_passthrough_witness :
    suspect suspectReq = true ∧
    (honeypotRun defaultConfig suspectReq .err).events = [Event.next] :=
  ⟨by decide, noverdict_passthrough defaultConfig suspectReq .err (by decide) trivial⟩

/-- A GET request whose URL contains the token `drop` (and no other token
anywhere): the spec's classifier flags it, the code's does not, because the
code tests the URL only for `select` and `union`. -/
def dropUrlReq : Request :=
  ⟨"GET", "/api/dropzone", .undef, none⟩

/-- C3 counterexample: `specClassify` (the claim's token rule) marks
`dropUrlReq` suspect, but the middleware's `suspect` is false there, so the
request passes through without the oracle ever being called. -/
theorem prefilter_url_token_counterexample :
    specClassify dropUrlReq = true ∧ suspect dropUrlReq = false ∧
    (honeypotRun defaultConfig dropUrlReq .err).events = [Event.next] ∧
    (honeypotRun defaultConfig dropUrlReq .err).oracleCalled = false :=
  ⟨by decide, by decide, rfl, rfl⟩

/-- C3 amended: the URL is tested only for `select` and `union`; the body
string and the string values of a structured body are tested for all seven
tokens; and a benign classification passes through at once without invoking
the decision client. -/
theorem prefilter_amended (cfg : Config) (req : Request) (orc : OracleOutcome) :
    (suspect req =
      (strContains (lowerStr req.url) "select" || strContains (lowerStr req.url) "union" ||
       token7 (lowerStr (guessBodyString req)) || structuredValueHit req.body)) ∧
    (suspect req = false →
      (honeypotRun cfg req orc).events = [Event.next] ∧
      (honeypotRun cfg req orc).oracleCalled = false) := by
  constructor
  · unfold suspect token7
    simp only [Bool.or_assoc]
  · intro h
    have hp : tryBody cfg req orc = (.returned [.next], false) := by
      unfold tryBody
      rw [if_neg (by simp [h])]
    refine ⟨?_, ?_⟩
    · show outerGuard (tryBody cfg req orc).1 = _
      rw [hp]
      rfl
    · show (tryBody cfg req orc).2 = _
      rw [hp]

theorem prefilter_amended_witness :
    suspect dropUrlReq = false ∧
    (honeypotRun defaultConfig dropUrlReq .err).events = [Event.next] ∧
    (honeypotRun defaultConfig dropUrlReq .err).oracleCalled = false :=
  ⟨by decide, (prefilter_amended defaultConfig dropUrlReq .err).2 (by decide)⟩

/-- C4: for a redirect verdict whose target is a string beginning with `/`,
the single terminal event is a redirect to the configured base (with one
trailing slash stripped) concatenated with the target. -/
theorem redirect_resolution (cfg : Config) (req : Request) (js : JsVal) (s : String)
    (hs : suspect req = true) (ht : truthy js = true)
    (ha : actionOf js = "redirect_honeypot" ∨ actionOf js = "redirect")
    (hu : getField (arOf js) "url" = .str s)
    (hrel : strStartsWith s "/" = true) :
    (honeypotRun cfg req (.ok js)).events =
      [Event.respond (.redirect (.str (stripTrailingSlash cfg.honeypotBase ++ s)))] := by
  have hne : truthy (JsVal.str s) = true := by
    have h1 : startsList ['/'] s.data = true := hrel
    cases hsd : s.data with
    | nil => rw [hsd] at h1; exact absurd h1 (by decide)
    | cons c rest => simp [truthy, hsd]
  rw [run_events_ok cfg req js hs ht, if_pos ha, hu]
  simp only [jsOr, hne, if_true, resolveRedirect, hrel]

/-- The oracle verdict of the claim's worked example: a redirect to the
relative target `/honeypot/fakedb`. -/
def redirectJs : JsVal :=
  .obj (.cons "action_result"
    (.obj (.cons "action" (.str "redirect")
      (.cons "url" (.str "/honeypot/fakedb") .nil))) .nil)

theorem redirect_resolution_witness :
    (honeypotRun ⟨"http://h:5000/"⟩ suspectReq (.ok redirectJs)).events =
      [Event.respond (.redirect (.str "http://h:5000/honeypot/fakedb"))] := by
  have h := redirect_resolution ⟨"http://h:5000/"⟩ suspectReq redirectJs "/honeypot/fakedb"
    (by decide) (by decide) (Or.inr (by decide)) rfl (by decide)
  rw [h]
  have hstr : stripTrailingSlash "http://h:5000/" ++ "/honeypot/fakedb" =
      "http://h:5000/honeypot/fakedb" := by decide
  rw [show (⟨"http://h:5000/"⟩ : Config).honeypotBase = "http://h:5000/" from rfl, hstr]

/-- A fake-data verdict that supplies an explicit non-200 status. -/
def fakeStatus500Js : JsVal :=
  .obj (.cons "action_result"
    (.obj (.cons "action" (.str "fake_data")
      (.cons "fake_payload" (.obj (.cons "foo" (.num 1) .nil))
        (.cons "status" (.num 500) .nil)))) .nil)

/-- C5 counterexample: the verdict supplies status 500, yet the enforced
fake-data response carries status 200 — `res.status(200)` is hard-coded on
this branch, so the verdict's status is ignored. -/
theorem fakedata_status_ignored_counterexample :
    getField (arOf fakeStatus500Js) "status" = JsVal.num 500 ∧
    (honeypotRun defaultConfig suspectReq (.ok fakeStatus500Js)).events =
      [Event.respond (.fakeData 200 (.obj (.cons "foo" (.num 1) .nil)))] :=
  ⟨rfl, rfl⟩

/-- C5 amended: every fake-data response has status 200 regardless of any
supplied status, and carries the verdict's `fake_payload` verbatim, with the
generic placeholder substituted when the payload is absent or falsy. -/
theorem fakedata_amended (cfg : Config) (req : Request) (js : JsVal)
    (hs : suspect req = true) (ht : truthy js = true)
    (h1 : actionOf js ≠ "redirect_honeypot") (h2 : actionOf js ≠ "redirect")
    (hf : actionOf js = "fake_data" ∨ truthy (getField (arOf js) "fake") = true) :
    (honeypotRun cfg req (.ok js)).events =
      [Event.respond (.fakeData 200 (jsOr (getField (arOf js) "fake_payload") fakePlaceholder))] := by
  rw [run_events_ok cfg req js hs ht,
    if_neg (by rintro (h | h); exacts [h1 h, h2 h]), if_pos hf]

/-- A fake-data verdict carrying a string payload and a non-200 status. -/
def fakePayloadJs : JsVal :=
  .obj (.cons "action_result"
    (.obj (.cons "action" (.str "fake_data")
      (.cons "fake_payload" (.str "zz") (.cons "status" (.num 404) .nil)))) .nil)

theorem fakedata_amended_witness :
    (honeypotRun defaultConfig suspectReq (.ok fakePayloadJs)).events =
      [Event.respond (.fakeData 200 (.str "zz"))] := by
  have h := fakedata_amended defaultConfig suspectReq fakePayloadJs
    (by decide) (by decide) (by decide) (by decide) (Or.inl (by decide))
  rw [h]
  rfl

/-- C6: a tarpit verdict (action `tarpit`, `tarpit_slowdown` or `delay`, no
truthy `fake` field) suspends the request for the parsed `delay_ms` before
the response is sent — the tarpit event records that suspension — and then
responds with the verdict's status and message; an absent `delay_ms`
defaults the suspension to 1000 ms, an absent status to 200, an absent
message to the generic `"Slow down"`, and a `delay_ms` of 50 yields a 50 ms
suspension. -/
theorem tarpit_enforcement (cfg : Config) (req : Request) (js : JsVal)
    (hs : suspect req = true) (ht : truthy js = true)
    (ha : actionOf js = "tarpit" ∨ actionOf js = "tarpit_slowdown" ∨ actionOf js = "delay")
    (hnf : truthy (getField (arOf js) "fake") = false) :
    (honeypotRun cfg req (.ok js)).events =
      [Event.respond (.tarpit (jsParseInt (jsOr (getField (arOf js) "delay_ms") (.num 1000)))
        (jsOr (getField (arOf js) "status") (.num 200))
        (jsOr (getField (arOf js) "message") (.str "Slow down")))] ∧
    (getField (arOf js) "delay_ms" = JsVal.undef →
      jsParseInt (jsOr (getField (arOf js) "delay_ms") (.num 1000)) = some 1000 ∧
      effectiveDelayMs (jsParseInt (jsOr (getField (arOf js) "delay_ms") (.num 1000))) = 1000) ∧
    (getField (arOf js) "delay_ms" = JsVal.num 50 →
      jsParseInt (jsOr (getField (arOf js) "delay_ms") (.num 1000)) = some 50) ∧
    (getField (arOf js) "status" = JsVal.undef →
      jsOr (getField (arOf js) "status") (.num 200) = JsVal.num 200) ∧
    (getField (arOf js) "message" = JsVal.undef →
      jsOr (getField (arOf js) "message") (.str "Slow down") = JsVal.str "Slow down") := by
  have hm : ¬(actionOf js = "redirect_honeypot" ∨ actionOf js = "redirect") := by
    rcases ha with h | h | h <;> rw [h] <;> decide
  have hm2 : ¬(actionOf js = "fake_data" ∨ truthy (getField (arOf js) "fake") = true) := by
    rintro (h' | h')
    · rcases ha with h | h | h <;> rw [h] at h' <;> exact absurd h' (by decide)
    · rw [hnf] at h'; exact absurd h' (by decide)
  refine ⟨?_, ?_, ?_, ?_, ?_⟩
  · rw [run_events_ok cfg req js hs ht, if_neg hm, if_neg hm2, if_pos ha]
  · intro h; rw [h]; exact ⟨rfl, rfl⟩
  · intro h; rw [h]; rfl
  · intro h; rw [h]; rfl
  · intro h; rw [h]; rfl

/-- A bare tarpit verdict: no delay, status or message fields. -/
def tarpitBareJs : JsVal :=
  .obj (.cons "action_result" (.obj (.cons "action" (.str "tarpit") .nil)) .nil)

theorem tarpit_enforcement_witness :
    (honeypotRun defaultConfig suspectReq (.ok tarpitBareJs)).events =
      [Event.respond (.tarpit (some 1000) (.num 200) (.str "Slow down"))] := by
  have h := tarpit_enforcement defaultConfig suspectReq tarpitBareJs
    (by decide) (by decide) (Or.inl (by decide)) (by decide)
  rw [h.1]
  rfl

/-- A redirect verdict with no `url` field at all: the claim calls this a
missing redirect target. -/
def redirectNoUrlJs : JsVal :=
  .obj (.cons "action_result" (.obj (.cons "action" (.str "redirect") .nil)) .nil)

/-- C7 counterexample: a redirect verdict with a missing target does not
degrade to pass-through; the middleware substitutes the default target
`/honeypot/fakedb` and issues a redirect. -/
theorem enforcement_missing_target_counterexample :
    getField (arOf redirectNoUrlJs) "url" = JsVal.undef ∧
    (honeypotRun defaultConfig suspectReq (.ok redirectNoUrlJs)).events =
      [Event.respond (.redirect (.str "http://127.0.0.1:5000/honeypot/fakedb"))] :=
  ⟨rfl, rfl⟩

/-- C7 amended: an error thrown inside the handler reaches the `catch`,
which only logs, and the trailing `next()` makes the outcome Passthrough;
likewise a verdict with a missing or unrecognized action and no truthy
`fake` field ends in Passthrough.  A missing redirect target, however, is
not a failure: the default target is substituted and the redirect proceeds
(see the counterexample). -/
theorem enforcement_failure_amended (cfg : Config) (req : Request) (js : JsVal)
    (hs : suspect req = true)
    (hna : ¬ RecognizedAction (actionOf js))
    (hnf : truthy (getField (arOf js) "fake") = false) :
    (honeypotRun cfg req (.ok js)).events = [Event.next] ∧
    outerGuard (Ctrl.threw []) = [Event.next] :=
  ⟨run_noverdict_next cfg req js hs (Or.inr ⟨hna, hnf⟩), rfl⟩

/-- A verdict whose action matches no enforcement branch. -/
def blockActionJs : JsVal :=
  .obj (.cons "action_result" (.obj (.cons "action" (.str "block") .nil)) .nil)

theorem enforcement_failure_amended_witness :
    (honeypotRun defaultConfig suspectReq (.ok blockActionJs)).events = [Event.next] ∧
    outerGuard (Ctrl.threw []) = [Event.next] :=
  enforcement_failure_amended defaultConfig suspectReq blockActionJs
    (by decide)
    (by rintro (h | h | h | h | h | h) <;> exact absurd h (by decide)) (by decide)

/-- An oracle response carrying only a top-level action descriptor, with no
nested `action_result`. -/
def topLevelActionJs : JsVal :=
  .obj (.cons "action" (.str "redirect_honeypot") (.cons "url" (.str "/h") .nil))

/-- C8 counterexample: a response whose action descriptor is only top-level
is not interpreted as an actionable verdict — the middleware reads nothing
but `action_result`, so this redirect verdict is treated as NoVerdict and the
request passes through. -/
theorem toplevel_action_ignored_counterexample :
    getField topLevelActionJs "action" = JsVal.str "redirect_honeypot" ∧
    getField topLevelActionJs "action_result" = JsVal.undef ∧
    truthy topLevelActionJs = true ∧
    (honeypotRun defaultConfig suspectReq (.ok topLevelActionJs)).events = [Event.next] :=
  ⟨rfl, rfl, rfl, rfl⟩

/-- C8 amended: only the nested `action_result` object is consulted; a truthy
response is actionable exactly when its `action_result`'s `action` (or
`action_type`) field stringifies to one of the six branch-selecting values,
or its `fake` field is truthy; every other shape — including responses with
only a top-level action descriptor, and the `normal`/`allow` actions — ends
in the pass-through `next()`. -/
theorem verdict_interpretation_amended (cfg : Config) (req : Request) (js : JsVal)
    (hs : suspect req = true) (ht : truthy js = true) :
    (RecognizedAction (actionOf js) ∨ truthy (getField (arOf js) "fake") = true →
      ∃ r, (honeypotRun cfg req (.ok js)).events = [Event.respond r]) ∧
    (¬ RecognizedAction (actionOf js) ∧ truthy (getField (arOf js) "fake") = false →
      (honeypotRun cfg req (.ok js)).events = [Event.next]) := by
  constructor
  · intro h
    rw [run_events_ok cfg req js hs ht]
    split_ifs with h1 h2 h3
    · exact ⟨_, rfl⟩
    · exact ⟨_, rfl⟩
    · exact ⟨_, rfl⟩
    · exfalso
      rcases h with hr | hf
      · rcases hr with h' | h' | h' | h' | h' | h'
        · exact h1 (Or.inl h')
        · exact h1 (Or.inr h')
        · exact h2 (Or.inl h')
        · exact h3 (Or.inl h')
        · exact h3 (Or.inr (Or.inl h'))
        · exact h3 (Or.inr (Or.inr h'))
      · exact h2 (Or.inr hf)
  · rintro ⟨hna, hnf⟩
    exact run_noverdict_next cfg req js hs (Or.inr ⟨hna, hnf⟩)

/-- A verdict selected through the `action_type` fallback field. -/
def actionTypeJs : JsVal :=
  .obj (.cons "action_result" (.obj (.cons "action_type" (.str "fake_data") .nil)) .nil)

theorem verdict_interpretation_amended_witness :
    actionOf actionTypeJs = "fake_data" ∧
    ∃ r, (honeypotRun defaultConfig suspectReq (.ok actionTypeJs)).events = [Event.respond r] :=
  ⟨by decide,
    (verdict_interpretation_amended defaultConfig suspectReq actionTypeJs
      (by decide) (by decide)).1 (Or.inl (Or.inr (Or.inr (Or.inl (by decide)))))⟩

/-- C9: the fake-data branch precedes the tarpit branch — any verdict with a
truthy `fake` field whose action is not a redirect is answered with the
fake-data response, even when its action is `tarpit`, `tarpit_slowdown`,
`delay` or unknown, so the tarpit branch is reachable only with a falsy
`fake`. -/
theorem fake_precedence_over_tarpit (cfg : Config) (req : Request) (js : JsVal)
    (hs : suspect req = true) (ht : truthy js = true)
    (hfake : truthy (getField (arOf js) "fake") = true)
    (h1 : actionOf js ≠ "redirect_honeypot") (h2 : actionOf js ≠ "redirect") :
    (honeypotRun cfg req (.ok js)).events =
      [Event.respond (.fakeData 200 (jsOr (getField (arOf js) "fake_payload") fakePlaceholder))] := by
  rw [run_events_ok cfg req js hs ht,
    if_neg (by rintro (h | h); exacts [h1 h, h2 h]), if_pos (Or.inr hfake)]

/-- A verdict whose action says `tarpit` but which also carries a truthy
`fake` field and a `delay_ms`. -/
def tarpitWithFakeJs : JsVal :=
  .obj (.cons "action_result"
    (.obj (.cons "action" (.str "tarpit")
      (.cons "fake" (.bool true) (.cons "delay_ms" (.num 5) .nil)))) .nil)

theorem fake_precedence_over_tarpit_witness :
    actionOf tarpitWithFakeJs = "tarpit" ∧
    (honeypotRun defaultConfig suspectReq (.ok tarpitWithFakeJs)).events =
      [Event.respond (.fakeData 200 fakePlaceholder)] := by
  refine ⟨by decide, ?_⟩
  have h := fake_precedence_over_tarpit defaultConfig suspectReq tarpitWithFakeJs
    (by decide) (by decide) (by decide) (by decide) (by decide)
  rw [h]
  rfl

/-- C10: a falsy `delay_ms` (0, empty string, `null`, absent, …) on a tarpit
verdict enforces the 1000 ms default, not a zero delay — `delay_ms: 0` is
indistinguishable from an unspecified delay. -/
theorem tarpit_falsy_delay_default (cfg : Config) (req : Request) (js : JsVal)
    (hs : suspect req = true) (ht : truthy js = true)
    (ha : actionOf js = "tarpit" ∨ actionOf js = "tarpit_slowdown" ∨ actionOf js = "delay")
    (hnf : truthy (getField (arOf js) "fake") = false)
    (hd : truthy (getField (arOf js) "delay_ms") = false) :
    (honeypotRun cfg req (.ok js)).events =
      [Event.respond (.tarpit (some 1000)
        (jsOr (getField (arOf js) "status") (.num 200))
        (jsOr (getField (arOf js) "message") (.str "Slow down")))] := by
  have hm : ¬(actionOf js = "redirect_honeypot" ∨ actionOf js = "redirect") := by
    rcases ha with h | h | h <;> rw [h] <;> decide
  have hm2 : ¬(actionOf js = "fake_data" ∨ truthy (getField (arOf js) "fake") = true) := by
    rintro (h' | h')
    · rcases ha with h | h | h <;> rw [h] at h' <;> exact absurd h' (by decide)
    · rw [hnf] at h'; exact absurd h' (by decide)
  rw [run_events_ok cfg req js hs ht, if_neg hm, if_neg hm2, if_pos ha]
  have hor : jsOr (getField (arOf js) "delay_ms") (.num 1000) = JsVal.num 1000 := by
    unfold jsOr
    rw [hd]
    rfl
  rw [hor]
  rfl

/-- A tarpit verdict with an explicit zero delay. -/
def tarpitZeroDelayJs : JsVal :=
  .obj (.cons "action_result"
    (.obj (.cons "action" (.str "delay") (.cons "delay_ms" (.num 0) .nil))) .nil)

theorem tarpit_falsy_delay_default_witness :
    getField (arOf tarpitZeroDelayJs) "delay_ms" = JsVal.num 0 ∧
    (honeypotRun defaultConfig suspectReq (.ok tarpitZeroDelayJs)).events =
      [Event.respond (.tarpit (some 1000) (.num 200) (.str "Slow down"))] := by
  refine ⟨rfl, ?_⟩
  have h := tarpit_falsy_delay_default defaultConfig suspectReq tarpitZeroDelayJs
    (by decide) (by decide) (Or.inr (Or.inr (by decide))) (by decide) (by decide)
  rw [h]
  rfl
